import Mathlib

/-!
Shallow embedding of `src/app.py` (invest-desktop): the indicator
computation pipeline (`fetch_stock_data`), the chart layout
(`draw_chart`) and the UI dispatch (`on_click_display`).

Modelling conventions:
* Prices are exact rationals (`ℚ`); a pandas float NaN is `none` in
  `Option ℚ`.  All pandas operations used by the source (`rolling.mean`,
  `rolling.std`, `diff`, `clip`, elementwise arithmetic) propagate NaN,
  which the embedding mirrors with `Option`.
* IEEE division semantics of the RSI expression
  `100 - (100 / (1 + avg_gain / avg_loss))` are embedded by explicit case
  split: `avg_loss ≠ 0` gives the finite formula, `avg_gain > 0 = avg_loss`
  gives `+inf` for `rs` hence exactly `100`, and `0/0` gives NaN (`none`).
* The square root inside `Series.rolling(25).std()` is irrational in
  general, so it is kept as an abstract parameter `sq : ℚ → ℚ` applied to
  the (exact, rational) sample variance; every theorem about the bands
  holds for every interpretation of `sq`.
-/

namespace InvestDesktop

/-- One raw trading session (a row of the DataFrame returned by
`stock.history`): the `Open`/`High`/`Low`/`Close`/`Volume` columns plus the
date index, modelled as a `Nat` ordinal. -/
structure DailyBar where
  timestamp : Nat
  Open : ℚ
  High : ℚ
  Low : ℚ
  Close : ℚ
  Volume : Nat
deriving Repr, DecidableEq

/-- Arithmetic mean of a list, as computed by `Series.rolling(w).mean()` on
the valid entries of a window (division by the count; `[]` gives `0/0 = 0`
but is never reached with `min_periods = window`). -/
def listMean (xs : List ℚ) : ℚ := xs.sum / xs.length

/-- Unbiased sample variance (pandas `Series.rolling(w).std()` uses
`ddof=1`, i.e. divisor `n - 1`; for the 25-session window the divisor
is 24).  The square root is applied separately via the abstract `sq`. -/
def sampleVar (xs : List ℚ) : ℚ :=
  ((xs.map (fun x => (x - listMean xs) ^ 2)).sum) / (xs.length - 1 : ℕ)

/-- Value of `series.rolling(window=w).f()` at row `i` (pandas default
`min_periods = window`): the trailing window `series[i-w+1 .. i]` must
have `w` rows (`w ≤ i+1`) all of which are non-NaN, otherwise NaN. -/
def rollingCell (w : Nat) (f : List ℚ → ℚ) (xs : List (Option ℚ)) (i : Nat) :
    Option ℚ :=
  if w ≤ i + 1 then
    let win := (xs.take (i + 1)).drop (i + 1 - w)
    if win.all Option.isSome then some (f (win.filterMap id)) else none
  else none

/-- The whole series `series.rolling(window=w).f()`, same length as the
input series. -/
def rollingApply (w : Nat) (f : List ℚ → ℚ) (xs : List (Option ℚ)) :
    List (Option ℚ) :=
  (List.range xs.length).map (rollingCell w f xs)

/-- Embeds `df['Close'].rolling(window=w).mean()` (app.py lines 27-29): the input
column has no NaN, so every entry is wrapped in `some`. -/
def maSeries (w : Nat) (close : List ℚ) : List (Option ℚ) :=
  rollingApply w listMean (close.map some)

/-- Embeds `std = df['Close'].rolling(window=25).std()` (app.py line 32): the
rolling sample variance with the abstract square root `sq` mapped over
the defined entries. -/
def stdSeries (sq : ℚ → ℚ) (close : List ℚ) : List (Option ℚ) :=
  (rollingApply 25 sampleVar (close.map some)).map (Option.map sq)

/-- Elementwise binary arithmetic on two aligned Series: NaN in either
operand propagates. -/
def opt2 (f : ℚ → ℚ → ℚ) : Option ℚ → Option ℚ → Option ℚ
  | some a, some b => some (f a b)
  | _, _ => none

/-- Embeds `df['Upper'] = df['25MA'] + (std * 2)` (app.py line 33). -/
def upperSeries (sq : ℚ → ℚ) (close : List ℚ) : List (Option ℚ) :=
  List.zipWith (opt2 (fun m s => m + s * 2)) (maSeries 25 close) (stdSeries sq close)

/-- Embeds `df['Lower'] = df['25MA'] - (std * 2)` (app.py line 34). -/
def lowerSeries (sq : ℚ → ℚ) (close : List ℚ) : List (Option ℚ) :=
  List.zipWith (opt2 (fun m s => m - s * 2)) (maSeries 25 close) (stdSeries sq close)

/-- Embeds `diff = df['Close'].diff()` (app.py line 37): NaN at row 0, else
`close[i] - close[i-1]`. -/
def diffList (close : List ℚ) : List (Option ℚ) :=
  (List.range close.length).map (fun i =>
    if i = 0 then none else some (close.getD i 0 - close.getD (i - 1) 0))

/-- Embeds `gain = diff.clip(lower=0)` (app.py line 38): clipping keeps NaN. -/
def gainSeries (close : List ℚ) : List (Option ℚ) :=
  (diffList close).map (Option.map (fun d => max d 0))

/-- Embeds `loss = -diff.clip(upper=0)` (app.py line 39): `-(min d 0) = max (-d) 0`,
and NaN stays NaN. -/
def lossSeries (close : List ℚ) : List (Option ℚ) :=
  (diffList close).map (Option.map (fun d => max (-d) 0))

/-- Embeds `avg_gain = gain.rolling(window=14).mean()` (app.py line 40). -/
def avgGain (close : List ℚ) : List (Option ℚ) :=
  rollingApply 14 listMean (gainSeries close)

/-- Embeds `avg_loss = loss.rolling(window=14).mean()` (app.py line 41). -/
def avgLoss (close : List ℚ) : List (Option ℚ) :=
  rollingApply 14 listMean (lossSeries close)

/-- One entry of `100 - (100 / (1 + avg_gain / avg_loss))` (app.py lines
42-43) under IEEE float semantics, in exact arithmetic: NaN in either
operand propagates; `avg_loss ≠ 0` is the finite formula; division of a
nonzero `avg_gain` by `avg_loss = 0` gives `rs = ±inf` and the whole
expression collapses to exactly `100`; `0/0` is NaN. -/
def rsiCell : Option ℚ → Option ℚ → Option ℚ
  | some g, some l =>
    if l = 0 then
      if g = 0 then none else some 100
    else some (100 - 100 / (1 + g / l))
  | _, _ => none

/-- Embeds `df['RSI'] = 100 - (100 / (1 + rs))` with `rs = avg_gain / avg_loss`
(app.py lines 42-43), elementwise over the aligned Series. -/
def rsiSeries (close : List ℚ) : List (Option ℚ) :=
  List.zipWith rsiCell (avgGain close) (avgLoss close)

/-- A row of the enriched DataFrame: the raw bar plus the derived columns
`5MA`, `25MA`, `75MA`, `Upper`, `Lower`, `RSI` added by
`fetch_stock_data` (Lean names cannot start with a digit). -/
structure EnrichedBar extends DailyBar where
  MA5 : Option ℚ
  MA25 : Option ℚ
  MA75 : Option ℚ
  Upper : Option ℚ
  Lower : Option ℚ
  RSI : Option ℚ
deriving Repr, DecidableEq

/-- The indicator computation of `fetch_stock_data` (app.py lines 27-43)
applied to a non-empty history: each row is augmented with the value of
every derived column at its own index. -/
def compute (sq : ℚ → ℚ) (bars : List DailyBar) : List EnrichedBar :=
  let close := bars.map (fun b => b.Close)
  bars.mapIdx (fun i b =>
    { toDailyBar := b
      MA5 := (maSeries 5 close).getD i none
      MA25 := (maSeries 25 close).getD i none
      MA75 := (maSeries 75 close).getD i none
      Upper := (upperSeries sq close).getD i none
      Lower := (lowerSeries sq close).getD i none
      RSI := (rsiSeries close).getD i none })

/-! ### The fetch boundary and the UI dispatch (app.py lines 12-48, 98-118) -/

/-- Behaviour of the external collaborators inside the `try:` block of
`fetch_stock_data`: either some call (`yf.Ticker`, `.history`, `.info`,
or pandas itself) raises, or the fetch returns a history plus the
optional `shortName` / `longName` metadata. -/
inductive FetchOutcome where
  | raises
  | returns (hist : List DailyBar) (shortName longName : Option String)
deriving Repr, DecidableEq

/-- Python `a or b` for an optional string `a` (app.py line 21): a missing
key and an empty string are both falsy. -/
def truthyOr (a : Option String) (b : String) : String :=
  match a with
  | some s => if s = "" then b else s
  | none => b

/-- Embeds `fetch_stock_data` (app.py lines 12-48): any exception inside the
`try:` yields `(None, None)`, an empty history yields `(None, None)`, and
otherwise the enriched DataFrame is returned together with the resolved
company name `info.get('shortName') or info.get('longName') or ticker`. -/
def fetch_stock_data (sq : ℚ → ℚ) (ticker : String) (o : FetchOutcome) :
    Option (List EnrichedBar × String) :=
  match o with
  | .raises => none
  | .returns hist s l =>
    if hist.isEmpty then none
    else some (compute sq hist, truthyOr s (truthyOr l ticker))

/-- The renderable layout produced by one `draw_chart` call: the session
index (timestamps) drawn in each of the three panels (price, RSI,
volume), the per-session volume bar colors, and the price-panel title.
The three axes share one x-axis (`sharex=True` at app.py line 157). -/
structure PanelLayout where
  priceIndex : List Nat
  rsiIndex : List Nat
  volumeIndex : List Nat
  volumeColors : List String
  title : String
deriving Repr, DecidableEq

/-- Embeds `df.tail(n)`: the trailing `n` rows (all rows when there are fewer). -/
def plotWindow {α : Type} (n : Nat) (xs : List α) : List α :=
  xs.drop (xs.length - n)

/-- The volume up-bar color constant of app.py line 85. -/
def upColor : String := "#10b981"

/-- The volume down-bar color constant of app.py line 85. -/
def downColor : String := "#ef4444"

/-- Embeds `draw_chart` (app.py lines 51-95): restricts to `plot_df = df.tail(60)`
(line 56), draws every panel over `plot_df.index`, colors each volume bar
by `'#10b981' if row['Close'] >= row['Open'] else '#ef4444'` (line 85) and
titles the price panel `f"{display_name} - Analysis"` (line 70). -/
def draw_chart (df : List EnrichedBar) (display_name : String) : PanelLayout :=
  let plot_df := plotWindow 60 df
  { priceIndex := plot_df.map (fun b => b.timestamp)
    rsiIndex := plot_df.map (fun b => b.timestamp)
    volumeIndex := plot_df.map (fun b => b.timestamp)
    volumeColors := plot_df.map (fun b =>
      if b.Open ≤ b.Close then upColor else downColor)
    title := display_name ++ " - Analysis" }

/-- Python `f"{x:.1f}"` for a finite non-negative value, in exact
arithmetic: round to one decimal place and print `intpart.digit`.  (The
status line only ever formats non-negative prices and RSI values; the
half-tie direction of binary-float rounding is immaterial to every claim
below.) -/
def fmt1 (q : ℚ) : String :=
  let s10 : Int := Int.floor (q * 10 + 1 / 2)
  toString (Int.fdiv s10 10) ++ "." ++ toString (Int.fmod s10 10).natAbs

/-- Python `f"{x:.1f}"` where `x` may be the float NaN (rendered `nan`),
as applied to `df['RSI'].iloc[-1]` at app.py line 111. -/
def fmt1nan (x : Option ℚ) : String :=
  match x with
  | none => "nan"
  | some q => fmt1 q

/-- The status line built at app.py lines 110-113. -/
def statusText (ticker company : String) (latest_price : ℚ) (latest_rsi : Option ℚ)
    (time_str : String) : String :=
  "[" ++ ticker ++ "] " ++ company ++ " | 株価: " ++ fmt1 latest_price ++
    " JPY (" ++ time_str ++ ")| RSI: " ++ fmt1nan latest_rsi

/-- Python `str.strip()`: drop whitespace from both ends. -/
def stripStr (s : String) : String :=
  ⟨((s.data.dropWhile Char.isWhitespace).reverse.dropWhile Char.isWhitespace).reverse⟩

/-- Python `str.upper()` on the ASCII range (ticker strings are ASCII;
`Char.toUpper` matches Python's mapping there). -/
def upperAscii (s : String) : String := ⟨s.data.map Char.toUpper⟩

/-- Observable outcome of one button press (`on_click_display`): a warning
dialog for an empty ticker, a status line plus a drawn chart on success,
or the failure status (with its error dialog) and no chart. -/
inductive UIOutcome where
  | warned
  | success (status : String) (chart : PanelLayout)
  | failed (status : String)
deriving Repr, DecidableEq

/-- Embeds `on_click_display` (app.py lines 98-118): normalizes the ticker
(`strip().upper()`), rejects the empty string, then either renders the
chart with the status line, or shows `"Fetch Failed"` and the error box.
`time_str` stands for the wall clock read at line 108. -/
def on_click_display (sq : ℚ → ℚ) (rawTicker : String) (o : FetchOutcome)
    (time_str : String) : UIOutcome :=
  let ticker := upperAscii (stripStr rawTicker)
  if ticker = "" then .warned
  else
    match fetch_stock_data sq ticker o with
    | some (df, company_name) =>
      .success
        (statusText ticker company_name ((df.map (fun b => b.Close)).getLastD 0)
          ((df.map (fun b => b.RSI)).getLastD none) time_str)
        (draw_chart df company_name)
    | none => .failed "Fetch Failed"

/-- A tiny concrete price history used to instantiate the theorems. -/
def demoClose : List ℚ := [1, 2, 3, 4, 5]

/-- A raw bar with the given timestamp, open and close. -/
def mkBar (t : Nat) (o c : ℚ) : DailyBar :=
  { timestamp := t, Open := o, High := c, Low := o, Close := c, Volume := 1 }

/-- An enriched bar whose derived columns are all NaN, for concrete layout
witnesses. -/
def mkEBar (t : Nat) (o c : ℚ) : EnrichedBar :=
  { toDailyBar := mkBar t o c, MA5 := none, MA25 := none, MA75 := none,
    Upper := none, Lower := none, RSI := none }

/-- A tiny enriched DataFrame: a flat day, a down day, an up day. -/
def demoDF : List EnrichedBar := [mkEBar 0 1 1, mkEBar 1 2 1, mkEBar 2 1 2]

/-- Twenty-five flat sessions, for the band witnesses. -/
def flat25 : List ℚ := List.replicate 25 1

/-- Twenty flat sessions at price 100: the `0/0` RSI input. -/
def flat20 : List ℚ := List.replicate 20 100

/-- Sixteen strictly rising closes: RSI saturates at 100. -/
def inc16 : List ℚ :=
  [1, 2, 3, 4, 5, 6, 7, 8, 9, 10, 11, 12, 13, 14, 15, 16]

/-! ### Basic lemmas about the rolling machinery -/

lemma getD_some_lt {α : Type} (xs : List (Option α)) (i : Nat) (v : α)
    (h : xs.getD i none = some v) : i < xs.length := by
  by_contra hn
  push_neg at hn
  rw [List.getD_eq_getElem?_getD, List.getElem?_eq_none hn] at h
  simp at h

lemma rollingApply_getD (w : Nat) (f : List ℚ → ℚ) (xs : List (Option ℚ)) (i : Nat) :
    (rollingApply w f xs).getD i none =
      if i < xs.length then rollingCell w f xs i else none := by
  unfold rollingApply
  by_cases h : i < xs.length
  · rw [List.getD_eq_getElem?_getD]
    simp [List.getElem?_map, List.getElem?_range, h]
  · rw [List.getD_eq_getElem?_getD, List.getElem?_eq_none (by simpa using not_lt.mp h)]
    simp [h]

lemma slice_length (close : List ℚ) (w i : Nat) (hw : w ≤ i + 1) (hi : i < close.length) :
    ((close.drop (i + 1 - w)).take w).length = w := by
  simp only [List.length_take, List.length_drop]
  omega

lemma rollingCell_map_some (w : Nat) (f : List ℚ → ℚ) (close : List ℚ) (i : Nat)
    (hw : w ≤ i + 1) :
    rollingCell w f (close.map some) i = some (f ((close.drop (i + 1 - w)).take w)) := by
  unfold rollingCell
  rw [if_pos hw]
  have h1 : ((close.map some).take (i + 1)).drop (i + 1 - w) =
      ((close.drop (i + 1 - w)).take w).map some := by
    rw [List.drop_take]
    have hww : i + 1 - (i + 1 - w) = w := by omega
    rw [hww, ← List.map_drop, List.map_take]
  have h2 : ((((close.drop (i + 1 - w)).take w).map some).all Option.isSome) = true := by
    rw [List.all_eq_true]
    intro x hx
    rcases List.mem_map.mp hx with ⟨y, _, rfl⟩
    rfl
  rw [h1, if_pos h2, List.filterMap_map]
  simp

lemma rollingCell_short (w : Nat) (f : List ℚ → ℚ) (xs : List (Option ℚ)) (i : Nat)
    (hw : ¬ w ≤ i + 1) : rollingCell w f xs i = none := by
  unfold rollingCell
  rw [if_neg hw]

/-- C1: for each window `w ∈ {5, 25, 75}`, the moving-average column at
index `i` is NaN exactly when `i < w - 1`, and for `i ≥ w - 1` it is the
arithmetic mean of `close[i-w+1 .. i]`. -/
theorem ma_window_definedness (close : List ℚ) (w i : Nat)
    (hw : w = 5 ∨ w = 25 ∨ w = 75) (hi : i < close.length) :
    ((maSeries w close).getD i none = none ↔ i < w - 1) ∧
    (w - 1 ≤ i → (maSeries w close).getD i none =
      some (((close.drop (i + 1 - w)).take w).sum / (w : ℚ))) := by
  have hw1 : 1 ≤ w := by rcases hw with h | h | h <;> omega
  constructor
  · rw [maSeries, rollingApply_getD, if_pos (by simpa using hi)]
    by_cases hcase : w ≤ i + 1
    · rw [rollingCell_map_some _ _ _ _ hcase]
      exact ⟨fun h => absurd h (by simp), fun h => absurd h (by omega)⟩
    · rw [rollingCell_short _ _ _ _ hcase]
      exact ⟨fun _ => by omega, fun _ => rfl⟩
  · intro hge
    have hcase : w ≤ i + 1 := by omega
    rw [maSeries, rollingApply_getD, if_pos (by simpa using hi),
      rollingCell_map_some _ _ _ _ hcase]
    congr 1
    rw [listMean, slice_length close w i hcase hi]

/-- Witness for C1: on `[1,2,3,4,5]` the 5-session moving average is NaN at
index 3 and equals `3` at index 4. -/
theorem ma_window_definedness_witness :
    ((maSeries 5 demoClose).getD 3 none = none) ∧
    ((maSeries 5 demoClose).getD 4 none = some 3) := by
  constructor
  · exact (ma_window_definedness demoClose 5 3 (Or.inl rfl) (by decide)).1.mpr (by decide)
  · have h := (ma_window_definedness demoClose 5 4 (Or.inl rfl) (by decide)).2 (by decide)
    rw [h]
    norm_num [demoClose]

/-- C4: `compute` (the indicator part of `fetch_stock_data`) returns a
row set of the same length as its input, with the identical timestamps in
the identical order.  Determinism and purity are inherent: `compute` is a
Lean function of its arguments alone. -/
theorem compute_length_timestamps (sq : ℚ → ℚ) (bars : List DailyBar) :
    (compute sq bars).length = bars.length ∧
    (compute sq bars).map (fun b => b.timestamp) = bars.map (fun b => b.timestamp) := by
  refine ⟨by simp [compute], ?_⟩
  apply List.ext_getElem
  · simp [compute]
  · intro i h1 h2
    simp [compute, List.getElem_mapIdx]

/-- C8: `df.tail(w)` never holds more than `w` sessions; all three panels
of `draw_chart` range over one and the same session index, namely the
trailing (at most 60) sessions of the input, so every panel covers the
identical trailing date range on the shared x-axis. -/
theorem layout_window_bound (df : List EnrichedBar) (name : String)
    (w : Nat) (df' : List EnrichedBar) (hw : 0 < w) :
    (plotWindow w df').length ≤ w ∧
    (draw_chart df name).rsiIndex = (draw_chart df name).priceIndex ∧
    (draw_chart df name).volumeIndex = (draw_chart df name).priceIndex ∧
    (draw_chart df name).priceIndex.length ≤ 60 ∧
    (draw_chart df name).priceIndex =
      (df.map (fun b => b.timestamp)).drop (df.length - 60) := by
  refine ⟨?_, rfl, rfl, ?_, ?_⟩
  · simp only [plotWindow, List.length_drop]
    omega
  · simp only [draw_chart, plotWindow, List.length_map, List.length_drop]
    omega
  · simp only [draw_chart, plotWindow, List.map_drop]

/-- Witness for C8 at a concrete three-row DataFrame. -/
theorem layout_window_bound_witness :
    (plotWindow 60 demoDF).length ≤ 60 ∧
    (draw_chart demoDF "X").rsiIndex = (draw_chart demoDF "X").priceIndex ∧
    (draw_chart demoDF "X").priceIndex.length ≤ 60 := by
  have h := layout_window_bound demoDF "X" 60 demoDF (by decide)
  exact ⟨h.1, h.2.1, h.2.2.2.1⟩

/-- C9: in the displayed window, the volume bar of a session is the "up"
color `#10b981` when `close >= open` and the "down" color `#ef4444`
otherwise; in particular a tie `close == open` gets the "up" color. -/
theorem volume_bar_colors (df : List EnrichedBar) (name : String) (i : Nat)
    (b : EnrichedBar) (hb : (plotWindow 60 df)[i]? = some b) :
    ((draw_chart df name).volumeColors[i]? =
      some (if b.Open ≤ b.Close then upColor else downColor)) ∧
    (b.Close = b.Open → (draw_chart df name).volumeColors[i]? = some upColor) := by
  constructor
  · simp [draw_chart, List.getElem?_map, hb]
  · intro he
    simp [draw_chart, List.getElem?_map, hb, he]

/-- Witness for C9: the flat session of `demoDF` (close = open) gets the
"up" color. -/
theorem volume_bar_colors_witness :
    (draw_chart demoDF "X").volumeColors[0]? = some upColor :=
  (volume_bar_colors demoDF "X" 0 (mkEBar 0 1 1) (by decide)).2 (by decide)

/-- C6: an empty fetched history makes `fetch_stock_data` return the same
`(None, None)` as a not-found ticker, and `on_click_display` then shows
the failure status (and its error dialog) without drawing any chart. -/
theorem empty_history_notfound (sq : ℚ → ℚ) (ticker : String) (s l : Option String)
    (t : String) (h : upperAscii (stripStr ticker) ≠ "") :
    fetch_stock_data sq (upperAscii (stripStr ticker)) (.returns [] s l) = none ∧
    on_click_display sq ticker (.returns [] s l) t = .failed "Fetch Failed" := by
  refine ⟨rfl, ?_⟩
  simp [on_click_display, fetch_stock_data, h]

/-- Witness for C6 at a concrete ticker. -/
theorem empty_history_notfound_witness :
    on_click_display (fun q => q) "7203.t" (.returns [] none none) "12:00:00" =
      .failed "Fetch Failed" :=
  (empty_history_notfound (fun q => q) "7203.t" none none "12:00:00" (by decide)).2

/-- C10: any exception raised inside `fetch_stock_data`'s `try:` block is
converted to the same `(None, None)` as an empty history, so the caller's
observable outcome (status line, error dialog, absence of a chart) is
identical to the not-found case; the embedding of the handler is total, so
no exception reaches the UI loop. -/
theorem exceptions_become_notfound (sq : ℚ → ℚ) (ticker : String)
    (s l : Option String) (t : String) :
    fetch_stock_data sq ticker .raises = none ∧
    fetch_stock_data sq ticker (.returns [] s l) = none ∧
    on_click_display sq ticker .raises t = on_click_display sq ticker (.returns [] s l) t := by
  refine ⟨rfl, rfl, ?_⟩
  simp [on_click_display, fetch_stock_data]

lemma getD_none_of_le {α : Type} (xs : List (Option α)) (i : Nat)
    (h : xs.length ≤ i) : xs.getD i none = none := by
  rw [List.getD_eq_getElem?_getD, List.getElem?_eq_none h]
  rfl

lemma length_maSeries (w : Nat) (close : List ℚ) :
    (maSeries w close).length = close.length := by
  simp [maSeries, rollingApply]

lemma length_stdSeries (sq : ℚ → ℚ) (close : List ℚ) :
    (stdSeries sq close).length = close.length := by
  simp [stdSeries, rollingApply]

lemma zipWith_getD_of_lt (f : Option ℚ → Option ℚ → Option ℚ)
    (a b : List (Option ℚ)) (i : Nat) (ha : i < a.length) (hb : i < b.length) :
    (List.zipWith f a b).getD i none = f (a.getD i none) (b.getD i none) := by
  rw [List.getD_eq_getElem _ _ (by simp [List.length_zipWith]; omega),
    List.getElem_zipWith, List.getD_eq_getElem _ _ ha, List.getD_eq_getElem _ _ hb]

/-- C5: where both band columns are defined, `Upper - 25MA = 25MA - Lower`
and both differences equal twice the trailing 25-session standard
deviation (whatever interpretation `sq` gives the square root of the
sample variance, whose divisor at the 25-window is 24); and the band
columns are NaN exactly where `25MA` or the deviation is NaN. -/
theorem bollinger_band_symmetry (sq : ℚ → ℚ) (close : List ℚ) (i : Nat) :
    ((upperSeries sq close).getD i none = none ↔
      ((maSeries 25 close).getD i none = none ∨ (stdSeries sq close).getD i none = none)) ∧
    ((lowerSeries sq close).getD i none = none ↔
      ((maSeries 25 close).getD i none = none ∨ (stdSeries sq close).getD i none = none)) ∧
    (∀ u l m, (upperSeries sq close).getD i none = some u →
      (lowerSeries sq close).getD i none = some l →
      (maSeries 25 close).getD i none = some m → u - m = m - l) ∧
    (∀ u m s, (upperSeries sq close).getD i none = some u →
      (maSeries 25 close).getD i none = some m →
      (stdSeries sq close).getD i none = some s → u - m = 2 * s) ∧
    (∀ xs : List ℚ, xs.length = 25 →
      sampleVar xs = (xs.map (fun x => (x - listMean xs) ^ 2)).sum / 24) := by
  by_cases hi : i < close.length
  · have hup : (upperSeries sq close).getD i none =
        opt2 (fun m s => m + s * 2) ((maSeries 25 close).getD i none)
          ((stdSeries sq close).getD i none) := by
      rw [upperSeries]
      exact zipWith_getD_of_lt _ _ _ i (by rw [length_maSeries]; exact hi)
        (by rw [length_stdSeries]; exact hi)
    have hlo : (lowerSeries sq close).getD i none =
        opt2 (fun m s => m - s * 2) ((maSeries 25 close).getD i none)
          ((stdSeries sq close).getD i none) := by
      rw [lowerSeries]
      exact zipWith_getD_of_lt _ _ _ i (by rw [length_maSeries]; exact hi)
        (by rw [length_stdSeries]; exact hi)
    refine ⟨?_, ?_, ?_, ?_, ?_⟩
    · rw [hup]
      rcases (maSeries 25 close).getD i none with _ | m <;>
        rcases (stdSeries sq close).getD i none with _ | s <;> simp [opt2]
    · rw [hlo]
      rcases (maSeries 25 close).getD i none with _ | m <;>
        rcases (stdSeries sq close).getD i none with _ | s <;> simp [opt2]
    · rintro u l m hu hl hm
      rw [hup, hm] at hu
      rw [hlo, hm] at hl
      rcases hs : (stdSeries sq close).getD i none with _ | s
      · rw [hs] at hu
        simp [opt2] at hu
      · rw [hs] at hu hl
        simp only [opt2, Option.some_inj] at hu hl
        subst hu hl
        ring
    · rintro u m s hu hm hs
      rw [hup, hm, hs] at hu
      simp only [opt2, Option.some_inj] at hu
      subst hu
      ring
    · intro xs hxs
      rw [sampleVar, hxs]
      norm_num
  · push_neg at hi
    have h1 : (upperSeries sq close).getD i none = none := by
      apply getD_none_of_le
      simp only [upperSeries, List.length_zipWith, length_maSeries, length_stdSeries]
      omega
    have h2 : (lowerSeries sq close).getD i none = none := by
      apply getD_none_of_le
      simp only [lowerSeries, List.length_zipWith, length_maSeries, length_stdSeries]
      omega
    have h3 : (maSeries 25 close).getD i none = none := by
      apply getD_none_of_le
      rw [length_maSeries]
      exact hi
    refine ⟨?_, ?_, ?_, ?_, ?_⟩
    · rw [h1, h3]
      simp
    · rw [h2, h3]
      simp
    · intro u l m hu hl hm
      rw [h1] at hu
      simp at hu
    · intro u m s hu hm hs
      rw [h1] at hu
      simp at hu
    · intro xs hxs
      rw [sampleVar, hxs]
      norm_num

/-- Witness for C5 on 25 flat sessions with `sq` the identity: both bands
evaluate to the 25-session mean and the symmetry holds with deviation 0. -/
theorem bollinger_band_symmetry_witness :
    (upperSeries (fun q => q) flat25).getD 24 none = some 1 ∧
    ((1 : ℚ) - 1 = 1 - 1 ∧ (1 : ℚ) - 1 = 2 * 0) := by
  have e1 : (upperSeries (fun q => q) flat25).getD 24 none = some 1 := by
    simp [upperSeries, opt2, maSeries, stdSeries, sampleVar, rollingApply, rollingCell,
      listMean, flat25, List.range_succ, List.replicate]
    try norm_num
  have e2 : (lowerSeries (fun q => q) flat25).getD 24 none = some 1 := by
    simp [lowerSeries, opt2, maSeries, stdSeries, sampleVar, rollingApply, rollingCell,
      listMean, flat25, List.range_succ, List.replicate]
    try norm_num
  have e3 : (maSeries 25 flat25).getD 24 none = some 1 := by
    simp [maSeries, rollingApply, rollingCell, listMean, flat25, List.range_succ,
      List.replicate]
    try norm_num
  have e4 : (stdSeries (fun q => q) flat25).getD 24 none = some 0 := by
    simp [stdSeries, sampleVar, rollingApply, rollingCell, listMean, flat25,
      List.range_succ, List.replicate]
    try norm_num
  exact ⟨e1, (bollinger_band_symmetry (fun q => q) flat25 24).2.2.1 1 1 1 e1 e2 e3,
    (bollinger_band_symmetry (fun q => q) flat25 24).2.2.2.1 1 1 0 e1 e3 e4⟩

lemma rollingCell_eq (w : Nat) (f : List ℚ → ℚ) (xs : List (Option ℚ)) (i : Nat) :
    rollingCell w f xs i =
      if w ≤ i + 1 then
        if ((xs.take (i + 1)).drop (i + 1 - w)).all Option.isSome then
          some (f (((xs.take (i + 1)).drop (i + 1 - w)).filterMap id))
        else none
      else none := rfl

lemma length_gainSeries (close : List ℚ) :
    (gainSeries close).length = close.length := by
  simp [gainSeries, diffList]

lemma length_lossSeries (close : List ℚ) :
    (lossSeries close).length = close.length := by
  simp [lossSeries, diffList]

lemma length_avgGain (close : List ℚ) :
    (avgGain close).length = close.length := by
  simp [avgGain, rollingApply, length_gainSeries]

lemma length_avgLoss (close : List ℚ) :
    (avgLoss close).length = close.length := by
  simp [avgLoss, rollingApply, length_lossSeries]

lemma rsiSeries_getD (close : List ℚ) (i : Nat) (hi : i < close.length) :
    (rsiSeries close).getD i none =
      rsiCell ((avgGain close).getD i none) ((avgLoss close).getD i none) := by
  rw [rsiSeries]
  exact zipWith_getD_of_lt rsiCell _ _ i (by rw [length_avgGain]; exact hi)
    (by rw [length_avgLoss]; exact hi)

lemma rolling_mean_nonneg (w : Nat) (xs : List (Option ℚ))
    (hxs : ∀ q : ℚ, some q ∈ xs → 0 ≤ q) (i : Nat) (g : ℚ)
    (h : (rollingApply w listMean xs).getD i none = some g) : 0 ≤ g := by
  have hi : i < xs.length := by
    have hlt := getD_some_lt _ _ _ h
    simpa [rollingApply] using hlt
  rw [rollingApply_getD, if_pos hi, rollingCell_eq] at h
  by_cases hw : w ≤ i + 1
  · rw [if_pos hw] at h
    by_cases hall : ((xs.take (i + 1)).drop (i + 1 - w)).all Option.isSome
    · rw [if_pos hall, Option.some_inj] at h
      rw [← h, listMean]
      apply div_nonneg _ (by positivity)
      apply List.sum_nonneg
      intro x hx
      rcases List.mem_filterMap.mp hx with ⟨o, ho, hid⟩
      have ho' : o = some x := hid
      subst ho'
      exact hxs x (List.mem_of_mem_take (List.mem_of_mem_drop ho))
    · rw [if_neg hall] at h
      exact absurd h (by simp)
  · rw [if_neg hw] at h
    exact absurd h (by simp)

lemma gain_entries_nonneg (close : List ℚ) :
    ∀ q : ℚ, some q ∈ gainSeries close → 0 ≤ q := by
  intro q hq
  rcases List.mem_map.mp hq with ⟨o, _, he⟩
  rcases o with _ | d
  · simp at he
  · simp only [Option.map_some'] at he
    rw [Option.some_inj] at he
    rw [← he]
    exact le_max_right _ _

lemma loss_entries_nonneg (close : List ℚ) :
    ∀ q : ℚ, some q ∈ lossSeries close → 0 ≤ q := by
  intro q hq
  rcases List.mem_map.mp hq with ⟨o, _, he⟩
  rcases o with _ | d
  · simp at he
  · simp only [Option.map_some'] at he
    rw [Option.some_inj] at he
    rw [← he]
    exact le_max_right _ _

lemma rsiCell_bounds (g l v : ℚ) (hg : 0 ≤ g) (hl : 0 ≤ l)
    (h : rsiCell (some g) (some l) = some v) : 0 ≤ v ∧ v ≤ 100 := by
  simp only [rsiCell] at h
  by_cases hl0 : l = 0
  · rw [if_pos hl0] at h
    by_cases hg0 : g = 0
    · rw [if_pos hg0] at h
      exact absurd h (by simp)
    · rw [if_neg hg0, Option.some_inj] at h
      rw [← h]
      norm_num
  · rw [if_neg hl0, Option.some_inj] at h
    have hlpos : 0 < l := hl.lt_of_ne (Ne.symm hl0)
    have hr : 0 ≤ g / l := div_nonneg hg hl
    have h2 : (0 : ℚ) < 100 / (1 + g / l) := by positivity
    have h3 : 100 / (1 + g / l) ≤ 100 := div_le_self (by norm_num) (by linarith)
    rw [← h]
    constructor <;> linarith

lemma gainSeries_head_none (close : List ℚ) (h : 0 < close.length) :
    (gainSeries close).getD 0 none = none := by
  rw [gainSeries, diffList,
    List.getD_eq_getElem _ _ (by simpa [diffList] using h)]
  simp

/-- C2 (amended): RSI is NaN for the first 14 sessions; wherever defined it
lies in `[0, 100]`; and it is exactly `100` whenever the trailing average
loss is zero and the trailing average gain is positive. -/
theorem rsi_first14_bounds_saturation (close : List ℚ) :
    (∀ i, i < 14 → i < close.length → (rsiSeries close).getD i none = none) ∧
    (∀ i v, (rsiSeries close).getD i none = some v → 0 ≤ v ∧ v ≤ 100) ∧
    (∀ i g, (avgLoss close).getD i none = some 0 →
      (avgGain close).getD i none = some g → 0 < g →
      (rsiSeries close).getD i none = some 100) := by
  refine ⟨?_, ?_, ?_⟩
  · intro i h14 hlen
    rw [rsiSeries_getD close i hlen]
    by_cases h13 : i + 1 < 14
    · have hnone : (avgGain close).getD i none = none := by
        rw [avgGain, rollingApply_getD,
          if_pos (by rw [length_gainSeries]; exact hlen)]
        exact rollingCell_short _ _ _ _ (by omega)
      rw [hnone]
      rcases (avgLoss close).getD i none with _ | l <;> rfl
    · have h13' : i = 13 := by omega
      subst h13'
      have hlen14 : 14 ≤ (gainSeries close).length := by
        rw [length_gainSeries]
        omega
      have hlt : 0 < (gainSeries close).length := by
        rw [length_gainSeries]
        omega
      have hhead : ((gainSeries close).take 14)[0]? = some none := by
        rw [List.getElem?_take]
        rw [if_pos (by norm_num : (0 : ℕ) < 14), List.getElem?_eq_getElem hlt,
          ← List.getD_eq_getElem _ none hlt, gainSeries_head_none close (by omega)]
      have hmem : (none : Option ℚ) ∈ (gainSeries close).take 14 :=
        List.getElem?_mem hhead
      have hnone : (avgGain close).getD 13 none = none := by
        rw [avgGain, rollingApply_getD,
          if_pos (by rw [length_gainSeries]; exact hlen), rollingCell_eq,
          if_pos (by norm_num)]
        have hdrop : ((gainSeries close).take (13 + 1)).drop (13 + 1 - 14) =
            (gainSeries close).take 14 := by
          norm_num
        rw [hdrop, if_neg]
        intro hall
        rw [List.all_eq_true] at hall
        exact absurd (hall none hmem) (by simp)
      rw [hnone]
      rcases (avgLoss close).getD 13 none with _ | l <;> rfl
  · intro i v h
    have hi : i < close.length := by
      have hlt := getD_some_lt _ _ _ h
      simpa [rsiSeries, List.length_zipWith, length_avgGain, length_avgLoss]
        using hlt
    rw [rsiSeries_getD close i hi] at h
    rcases hg : (avgGain close).getD i none with _ | g <;> rw [hg] at h
    · rcases (avgLoss close).getD i none with _ | l <;> simp [rsiCell] at h
    rcases hl : (avgLoss close).getD i none with _ | l <;> rw [hl] at h
    · simp [rsiCell] at h
    rw [avgGain] at hg
    rw [avgLoss] at hl
    exact rsiCell_bounds g l v
      (rolling_mean_nonneg 14 _ (gain_entries_nonneg close) i g hg)
      (rolling_mean_nonneg 14 _ (loss_entries_nonneg close) i l hl) h
  · intro i g hl hg hgpos
    have hi : i < close.length := by
      have hlt := getD_some_lt _ _ _ hg
      simpa [length_avgGain] using hlt
    rw [rsiSeries_getD close i hi, hg, hl]
    simp [rsiCell, ne_of_gt hgpos]

/-- Witness for C2: on sixteen strictly rising closes the RSI is NaN at
index 5 and saturates to exactly 100 at index 14. -/
theorem rsi_first14_bounds_saturation_witness :
    (rsiSeries inc16).getD 5 none = none ∧
    (rsiSeries inc16).getD 14 none = some 100 := by
  have hloss : (avgLoss inc16).getD 14 none = some 0 := by
    simp [avgLoss, rollingApply, rollingCell, listMean, lossSeries, diffList, inc16,
      List.range_succ]
    try norm_num
  have hgain : (avgGain inc16).getD 14 none = some 1 := by
    simp [avgGain, rollingApply, rollingCell, listMean, gainSeries, diffList, inc16,
      List.range_succ]
    try norm_num
  exact ⟨(rsi_first14_bounds_saturation inc16).1 5 (by norm_num) (by norm_num [inc16]),
    (rsi_first14_bounds_saturation inc16).2.2 14 1 hloss hgain (by norm_num)⟩

/-- C2 counterexample: on twenty flat sessions every trailing 14-window is
non-decreasing in close, yet the RSI at index 19 is NaN (`0/0`), not 100 —
refuting the claim's parenthetical "equivalently, when every session in
the trailing 14-window is non-decreasing in close". -/
theorem rsi_flat_window_not_100 :
    (∀ j < 19, flat20.getD j 0 ≤ flat20.getD (j + 1) 0) ∧
    (rsiSeries flat20).getD 19 none = none ∧
    ¬ (rsiSeries flat20).getD 19 none = some 100 := by
  have hval : (rsiSeries flat20).getD 19 none = none := by
    simp [rsiSeries, rsiCell, avgGain, avgLoss, rollingApply, rollingCell, listMean,
      gainSeries, lossSeries, diffList, flat20, List.range_succ, List.replicate]
  refine ⟨by decide, hval, ?_⟩
  rw [hval]
  simp

/-- C3 (code behaviour at the 0/0 case): on twenty flat sessions both
trailing averages at index 19 are zero, `rs = 0/0` is NaN, so the RSI
column ends in NaN — and the status line built from it renders that NaN
as the text `nan`: the indeterminate value is not resolved to any fixed
sentinel but propagates into the status string. -/
theorem rsi_zero_over_zero_nan :
    (avgGain flat20).getD 19 none = some 0 ∧
    (avgLoss flat20).getD 19 none = some 0 ∧
    (rsiSeries flat20).getD 19 none = none ∧
    statusText "7203.T" "TOYOTA" 100 ((rsiSeries flat20).getLastD none) "12:00:00" =
      "[7203.T] TOYOTA | 株価: 100.0 JPY (12:00:00)| RSI: nan" := by
  have hg : (avgGain flat20).getD 19 none = some 0 := by
    simp [avgGain, rollingApply, rollingCell, listMean, gainSeries, diffList, flat20,
      List.range_succ, List.replicate]
  have hl : (avgLoss flat20).getD 19 none = some 0 := by
    simp [avgLoss, rollingApply, rollingCell, listMean, lossSeries, diffList, flat20,
      List.range_succ, List.replicate]
  have hr : (rsiSeries flat20).getD 19 none = none := by
    simp [rsiSeries, rsiCell, avgGain, avgLoss, rollingApply, rollingCell, listMean,
      gainSeries, lossSeries, diffList, flat20, List.range_succ, List.replicate]
  have hlast : (rsiSeries flat20).getLastD none = none := by
    simp [rsiSeries, rsiCell, avgGain, avgLoss, rollingApply, rollingCell, listMean,
      gainSeries, lossSeries, diffList, flat20, List.range_succ, List.replicate,
      List.getLastD]
  have hf : Int.floor ((100 : ℚ) * 10 + 1 / 2) = 1000 := by
    rw [Int.floor_eq_iff]
    norm_num
  refine ⟨hg, hl, hr, ?_⟩
  rw [statusText, hlast, fmt1nan, fmt1, hf]
  decide

/-! ### Prefix lemmas: no look-ahead -/

lemma prefix_length_lt {α : Type} (c₁ c₂ : List α) (i : Nat) (hi : i < c₁.length)
    (h : c₁.take (i + 1) = c₂.take (i + 1)) : i < c₂.length := by
  have hlen := congrArg List.length h
  simp only [List.length_take] at hlen
  omega

lemma rollingCell_congr (w : Nat) (f : List ℚ → ℚ) (xs ys : List (Option ℚ)) (i : Nat)
    (h : xs.take (i + 1) = ys.take (i + 1)) :
    rollingCell w f xs i = rollingCell w f ys i := by
  rw [rollingCell_eq, rollingCell_eq, h]

lemma rollingApply_getD_congr (w : Nat) (f : List ℚ → ℚ) (xs ys : List (Option ℚ))
    (i : Nat) (hx : i < xs.length) (hy : i < ys.length)
    (h : xs.take (i + 1) = ys.take (i + 1)) :
    (rollingApply w f xs).getD i none = (rollingApply w f ys).getD i none := by
  rw [rollingApply_getD, rollingApply_getD, if_pos hx, if_pos hy,
    rollingCell_congr w f xs ys i h]

lemma getD_take_eq {α : Type} (xs : List α) (d : α) (j k : Nat) (hj : j < k) :
    (xs.take k).getD j d = xs.getD j d := by
  rw [List.getD_eq_getElem?_getD, List.getD_eq_getElem?_getD, List.getElem?_take]
  simp [hj]

lemma prefix_getD_eq (c₁ c₂ : List ℚ) (i : Nat)
    (h : c₁.take (i + 1) = c₂.take (i + 1)) (j : Nat) (hj : j < i + 1) :
    c₁.getD j 0 = c₂.getD j 0 := by
  rw [← getD_take_eq c₁ 0 j (i + 1) hj, ← getD_take_eq c₂ 0 j (i + 1) hj, h]

lemma diffList_take_congr (c₁ c₂ : List ℚ) (i : Nat) (hi1 : i < c₁.length)
    (hi2 : i < c₂.length) (h : c₁.take (i + 1) = c₂.take (i + 1)) :
    (diffList c₁).take (i + 1) = (diffList c₂).take (i + 1) := by
  apply List.ext_getElem
  · simp only [List.length_take, diffList, List.length_map, List.length_range]
    omega
  · intro j h1 h2
    have hj : j < i + 1 := by
      simp only [List.length_take] at h1
      omega
    have hj1 : j < c₁.length := by
      simp only [List.length_take, diffList, List.length_map, List.length_range] at h1
      omega
    have hj2 : j < c₂.length := by
      simp only [List.length_take, diffList, List.length_map, List.length_range] at h2
      omega
    rw [List.getElem_take, List.getElem_take]
    simp only [diffList, List.getElem_map, List.getElem_range]
    by_cases hj0 : j = 0
    · simp [hj0]
    · rw [if_neg hj0, if_neg hj0, prefix_getD_eq c₁ c₂ i h j hj,
        prefix_getD_eq c₁ c₂ i h (j - 1) (by omega)]

lemma map_optionMap_getD (f : ℚ → ℚ) (l : List (Option ℚ)) (i : Nat) :
    (l.map (Option.map f)).getD i none = Option.map f (l.getD i none) := by
  rw [List.getD_eq_getElem?_getD, List.getElem?_map, List.getD_eq_getElem?_getD]
  rcases l[i]? with _ | x <;> rfl

/-- C7: no look-ahead — if two close series agree up to and including
index `i`, every derived column (any-window moving average, both band
columns, RSI) takes the same value at `i` on both series, whatever happens
strictly after `i`. -/
theorem no_lookahead (sq : ℚ → ℚ) (c₁ c₂ : List ℚ) (i : Nat)
    (hi : i < c₁.length) (hpre : c₁.take (i + 1) = c₂.take (i + 1)) :
    (∀ w, (maSeries w c₁).getD i none = (maSeries w c₂).getD i none) ∧
    ((upperSeries sq c₁).getD i none = (upperSeries sq c₂).getD i none) ∧
    ((lowerSeries sq c₁).getD i none = (lowerSeries sq c₂).getD i none) ∧
    ((rsiSeries c₁).getD i none = (rsiSeries c₂).getD i none) := by
  have hi2 : i < c₂.length := prefix_length_lt c₁ c₂ i hi hpre
  have hsome : (c₁.map some).take (i + 1) = (c₂.map some).take (i + 1) := by
    rw [← List.map_take, ← List.map_take, hpre]
  have hma : ∀ w, (maSeries w c₁).getD i none = (maSeries w c₂).getD i none := by
    intro w
    rw [maSeries, maSeries]
    exact rollingApply_getD_congr w listMean _ _ i (by simpa using hi)
      (by simpa using hi2) hsome
  have hstd : (stdSeries sq c₁).getD i none = (stdSeries sq c₂).getD i none := by
    rw [stdSeries, stdSeries, map_optionMap_getD, map_optionMap_getD,
      rollingApply_getD_congr 25 sampleVar _ _ i (by simpa using hi)
        (by simpa using hi2) hsome]
  have hup : (upperSeries sq c₁).getD i none = (upperSeries sq c₂).getD i none := by
    rw [upperSeries, upperSeries,
      zipWith_getD_of_lt _ _ _ i (by rw [length_maSeries]; exact hi)
        (by rw [length_stdSeries]; exact hi),
      zipWith_getD_of_lt _ _ _ i (by rw [length_maSeries]; exact hi2)
        (by rw [length_stdSeries]; exact hi2),
      hma 25, hstd]
  have hlo : (lowerSeries sq c₁).getD i none = (lowerSeries sq c₂).getD i none := by
    rw [lowerSeries, lowerSeries,
      zipWith_getD_of_lt _ _ _ i (by rw [length_maSeries]; exact hi)
        (by rw [length_stdSeries]; exact hi),
      zipWith_getD_of_lt _ _ _ i (by rw [length_maSeries]; exact hi2)
        (by rw [length_stdSeries]; exact hi2),
      hma 25, hstd]
  have hdiff := diffList_take_congr c₁ c₂ i hi hi2 hpre
  have hgain : (gainSeries c₁).take (i + 1) = (gainSeries c₂).take (i + 1) := by
    rw [gainSeries, gainSeries, ← List.map_take, ← List.map_take, hdiff]
  have hloss : (lossSeries c₁).take (i + 1) = (lossSeries c₂).take (i + 1) := by
    rw [lossSeries, lossSeries, ← List.map_take, ← List.map_take, hdiff]
  have hag : (avgGain c₁).getD i none = (avgGain c₂).getD i none := by
    rw [avgGain, avgGain]
    exact rollingApply_getD_congr 14 listMean _ _ i
      (by rw [length_gainSeries]; exact hi) (by rw [length_gainSeries]; exact hi2) hgain
  have hal : (avgLoss c₁).getD i none = (avgLoss c₂).getD i none := by
    rw [avgLoss, avgLoss]
    exact rollingApply_getD_congr 14 listMean _ _ i
      (by rw [length_lossSeries]; exact hi) (by rw [length_lossSeries]; exact hi2) hloss
  refine ⟨hma, hup, hlo, ?_⟩
  rw [rsiSeries_getD c₁ i hi, rsiSeries_getD c₂ i hi2, hag, hal]

/-- Witness for C7: `[1,2,3]` and `[1,2,100]` agree up to index 1 and get
the same derived values there. -/
theorem no_lookahead_witness :
    (maSeries 5 [1, 2, 3]).getD 1 none = (maSeries 5 [1, 2, 100]).getD 1 none ∧
    (rsiSeries [1, 2, 3]).getD 1 none = (rsiSeries [1, 2, 100]).getD 1 none := by
  have h := no_lookahead (fun q => q) [1, 2, 3] [1, 2, 100] 1 (by norm_num) (by decide)
  exact ⟨h.1 5, h.2.2.2⟩

end InvestDesktop
